import Mathlib

/-!
Shallow embedding of the workspace-observation and action-dispatch core of
`cerveau/cli/app.py`: the scan (`_is_dir_candidate`, `scan_workspace`), the
classifier helpers (`_git_is_repo`, `_detect_python_project`,
`_detect_node_project`, `_detect_obsidian`, `_git_branch`,
`_git_last_commit_relative`), the selection state (`_render`'s clamp and
`_select_delta`), the item-scoped actions (`_open_selected`, `_git_status`,
`_npm_dev`, `_python_setup`) and one iteration of the `_vince_tui` loop.

The filesystem and the external command runner are inputs of the embedding:
each direct child of the root carries the names present directly inside it and
the outcomes of the two git lookup commands; actions are modelled by the list
of external effects they emit.  Python string operations used by the code
(`lower`, `strip`, `startswith`, truthiness `or`) are re-implemented
structurally over the character list so that everything computes.
-/

namespace Cerveau

/-- Python `str.lower()`, embedded per character via `Char.toLower`.  On ASCII
characters this agrees with Python exactly; Python additionally folds
non-ASCII letters (for example a capital e-acute) which `Char.toLower` leaves
unchanged, so theorems about the sort order carry an explicit all-ASCII
hypothesis scoping them to the domain where the embedding of the key is
exact. -/
def pyLower (s : String) : String := ⟨s.data.map Char.toLower⟩

/-- Every character of the string is in the ASCII range — the domain on which
`pyLower` computes exactly Python `str.lower()`. -/
def asciiOnly (s : String) : Bool := s.data.all fun c => c.toNat < 128

/-- Python `s.startswith(pre)`. -/
def startsWith (s pre : String) : Bool := pre.data.isPrefixOf s.data

/-- Python `str.strip()`: drop leading and trailing whitespace. -/
def pyStrip (s : String) : String :=
  ⟨((s.data.dropWhile Char.isWhitespace).reverse.dropWhile Char.isWhitespace).reverse⟩

/-- Python `a or b` on strings: `b` when `a` is empty (falsy), else `a`. -/
def pyOr (a b : String) : String := if a = "" then b else a

/-- Lexicographic order on character lists by code point: Python string
comparison, as used by `sorted(..., key=lambda p: p.name.lower())`. -/
def lexLe : List Char → List Char → Bool
  | [], _ => true
  | _ :: _, [] => false
  | a :: as, b :: bs => if a = b then lexLe as bs else decide (a < b)

/-- Outcome of one external command invocation through `_sh` (the capturing
variant): the stdout the command itself wrote (its stderr is dropped by the
`2>/dev/null` redirection) and whether it exited successfully.  A failing
command may still have written to stdout first: `git rev-parse --abbrev-ref
HEAD` in a repository with no commits prints `HEAD` to stdout before exiting
non-zero. -/
structure CmdResult where
  stdout : String
  exitOk : Bool
deriving DecidableEq

/-- The captured stdout of `<cmd> 2>/dev/null || echo -` as run by `_sh`: the
command's own stdout, followed by `"-\n"` from the `echo` fallback exactly
when the command failed. -/
def fallbackStdout (r : CmdResult) : String :=
  if r.exitOk then r.stdout else r.stdout ++ "-\n"

/-- One direct child of the workspace root, together with the part of the
environment its classification reads: `name` and `is_dir()` of the child, the
set of names present directly inside it (for the marker-file `exists()`
checks), and the outcomes of the two git lookup commands run with the child as
working directory. -/
structure Entry where
  name : String
  isDir : Bool
  inside : List String
  branchCmd : CmdResult
  logCmd : CmdResult
deriving DecidableEq

/-- `_git_is_repo`: `(path / ".git").exists()`. -/
def git_is_repo (e : Entry) : Bool := e.inside.contains ".git"

/-- `_detect_python_project`: any of the four marker files exists. -/
def detect_python_project (e : Entry) : Bool :=
  ["pyproject.toml", "requirements.txt", "setup.py", "Pipfile"].any fun f =>
    e.inside.contains f

/-- `_detect_node_project`: `(path / "package.json").exists()`. -/
def detect_node_project (e : Entry) : Bool := e.inside.contains "package.json"

/-- `_detect_obsidian`: `(path / ".obsidian").exists()`. -/
def detect_obsidian (e : Entry) : Bool := e.inside.contains ".obsidian"

/-- The noise-name tuple tested by exact match in `_is_dir_candidate`. -/
def noiseNames : List String :=
  ["node_modules", "__pycache__", ".venv", "dist", "build", ".cache"]

/-- `_is_dir_candidate`. -/
def is_dir_candidate (e : Entry) : Bool :=
  if !e.isDir then false
  else if startsWith e.name "." && !(e.name == ".obsidian") then false
  else if noiseNames.contains e.name then false
  else true

/-- `_git_branch`: `"-"` unless a repo, else the `strip`ped stdout of
`git rev-parse --abbrev-ref HEAD 2>/dev/null || echo -`, with `out or "-"`
turning empty output into the sentinel. -/
def git_branch (e : Entry) : String :=
  if !git_is_repo e then "-" else pyOr (pyStrip (fallbackStdout e.branchCmd)) "-"

/-- `_git_last_commit_relative`: same shape over
`git log -1 --pretty=%cr 2>/dev/null || echo -`. -/
def git_last_commit_relative (e : Entry) : String :=
  if !git_is_repo e then "-" else pyOr (pyStrip (fallbackStdout e.logCmd)) "-"

/-- `WorkspaceItem` dataclass (frozen). -/
structure WorkspaceItem where
  name : String
  path : String
  is_git : Bool
  is_python : Bool
  is_node : Bool
  is_obsidian : Bool
  branch : String
  last_commit : String
deriving DecidableEq

/-- The body of the `scan_workspace` loop for one surviving child: the
classification of the child into a `WorkspaceItem`, with the git lookups only
attempted when `is_git`. -/
def classifyChild (rootPath : String) (e : Entry) : WorkspaceItem :=
  let g := git_is_repo e
  { name := e.name
    path := rootPath ++ "/" ++ e.name
    is_git := g
    is_python := detect_python_project e
    is_node := detect_node_project e
    is_obsidian := detect_obsidian e
    branch := if g then git_branch e else "-"
    last_commit := if g then git_last_commit_relative e else "-" }

/-- The workspace root as observed by one scan: its path, whether
`root.exists()`, and the sequence `root.iterdir()` yields in filesystem
order. -/
structure RootDir where
  path : String
  present : Bool
  entries : List Entry
deriving DecidableEq

/-- The `sorted` key comparison: `p.name.lower()` compared as Python strings. -/
def nameKeyLe (a b : Entry) : Prop :=
  lexLe (pyLower a.name).data (pyLower b.name).data = true

instance : DecidableRel nameKeyLe := fun _ _ => instDecidableEqBool _ _

/-- `scan_workspace root`: empty when the root does not exist; otherwise the
direct children sorted case-insensitively by name, filtered by
`_is_dir_candidate`, each classified into a `WorkspaceItem`.  Python `sorted`
is a stable sort by the key; it is modelled by the stable
`List.insertionSort`, which computes the same sequence. -/
def scan_workspace (root : RootDir) : List WorkspaceItem :=
  if !root.present then []
  else ((List.insertionSort nameKeyLe root.entries).filter is_dir_candidate).map
    (classifyChild root.path)

/-- `_select_delta`: no-op on an empty item list, else move the index by
`delta` modulo the item count (Python `%` on a positive modulus, i.e.
euclidean remainder). -/
def select_delta (delta : Int) (itemCount : Nat) (selected_index : Int) : Int :=
  if itemCount = 0 then selected_index
  else (selected_index + delta) % (itemCount : Int)

/-- The selection clamp at the top of `_render`:
`max(0, min(selected_index, len(items) - 1))` when items exist, else `0`. -/
def render_clamp (itemCount : Nat) (selected_index : Int) : Int :=
  if itemCount ≠ 0 then max 0 (min selected_index ((itemCount : Int) - 1)) else 0

/-- An observable external effect of one action: `xdg-open` through `_xopen`,
or a shell command through `_run` in a working directory. -/
inductive Effect where
  | xopen (path : String)
  | run (cmd : String) (cwd : String)
deriving DecidableEq

/-- `_open_selected`. -/
def open_selected : Option WorkspaceItem → List Effect
  | none => []
  | some it => [.xopen it.path]

/-- The command run by `_git_status`. -/
def git_status_cmd : String := "git status --porcelain=v1 && echo '---' && git status"

/-- `_git_status`: no-op without a selection or when not a git repo. -/
def git_status : Option WorkspaceItem → List Effect
  | none => []
  | some it => if !it.is_git then [] else [.run git_status_cmd it.path]

/-- `_npm_dev`: no-op without a selection or when not a node project. -/
def npm_dev : Option WorkspaceItem → List Effect
  | none => []
  | some it => if !it.is_node then [] else [.run "npm install && npm run dev" it.path]

/-- The triple-quoted bootstrap script run by `_python_setup` after the venv
check: pip self-upgrade, then install from `requirements.txt` if present. -/
def python_setup_cmd : String :=
  "\n        source .venv/bin/activate\n        python -m pip install -U pip\n        if [ -f requirements.txt ]; then pip install -r requirements.txt; fi\n        if [ -f pyproject.toml ]; then echo \"pyproject.toml detected (poetry/pip-tools possible)\"; fi\n        "

/-- The venv-creation command of `_python_setup`, run only when absent. -/
def venv_create_cmd : String := "python -m venv .venv"

/-- `_python_setup`; `venvPresent` is the value of
`(it.path / ".venv").exists()` at dispatch time. -/
def python_setup (venvPresent : Bool) : Option WorkspaceItem → List Effect
  | none => []
  | some it =>
      if !it.is_python then []
      else (if !venvPresent then [Effect.run venv_create_cmd it.path] else []) ++
        [Effect.run python_setup_cmd it.path]

/-- The keys of the `actions` dict built by `_render`, in order. -/
def actionKeys : List String := ["j", "k", "o", "g", "n", "p", "r", "q"]

/-- Result of one iteration of the dashboard loop: either the loop returned
(quit key), or it continues with the updated selection index and the external
effects the dispatched action emitted. -/
inductive StepOutcome where
  | terminated (selected_index : Int)
  | running (selected_index : Int) (effects : List Effect)
deriving DecidableEq

/-- `Prompt.ask("Action", default="q").strip()`: the default replaces empty
input, then the result is stripped. -/
def readKey (raw : String) : String := pyStrip (if raw = "" then "q" else raw)

/-- One iteration of the `while True` loop of `_vince_tui`: re-scan, render
(which clamps the selection index), read exactly one key, then dispatch:
unrecognized keys `continue` with no effect, `q` returns, `j`/`k` move the
selection, `o`/`g`/`n`/`p` run the item-scoped action on the currently
selected item, `r` is bound to `lambda: None`. -/
def loop_step (root : RootDir) (venvPresent : Bool) (selected_index : Int)
    (raw : String) : StepOutcome :=
  let items := scan_workspace root
  let sel := render_clamp items.length selected_index
  let selItem : Option WorkspaceItem := if items.isEmpty then none else items[sel.toNat]?
  let key := readKey raw
  if !(actionKeys.contains key) then .running sel []
  else if key = "q" then .terminated sel
  else if key = "j" then .running (select_delta 1 items.length sel) []
  else if key = "k" then .running (select_delta (-1) items.length sel) []
  else if key = "o" then .running sel (open_selected selItem)
  else if key = "g" then .running sel (git_status selItem)
  else if key = "n" then .running sel (npm_dev selItem)
  else if key = "p" then .running sel (python_setup venvPresent selItem)
  else .running sel []

/-! ### Order lemmas for the sort key -/

theorem lexLe_refl (as : List Char) : lexLe as as = true := by
  induction as with
  | nil => rfl
  | cons a as ih => simp [lexLe, ih]

theorem lexLe_trans {as bs cs : List Char} (h1 : lexLe as bs = true)
    (h2 : lexLe bs cs = true) : lexLe as cs = true := by
  induction as generalizing bs cs with
  | nil => rfl
  | cons a as ih =>
    cases bs with
    | nil => simp [lexLe] at h1
    | cons b bs =>
      cases cs with
      | nil => simp [lexLe] at h2
      | cons c cs =>
        simp only [lexLe] at h1 h2 ⊢
        by_cases hab : a = b
        · subst hab
          simp only [if_pos rfl] at h1
          by_cases hbc : a = c
          · subst hbc
            simp only [if_pos rfl] at h2 ⊢
            exact ih h1 h2
          · simp only [if_neg hbc] at h2 ⊢
            exact h2
        · simp only [if_neg hab, decide_eq_true_eq] at h1
          by_cases hbc : b = c
          · subst hbc
            simp only [if_neg hab, decide_eq_true_eq]
            exact h1
          · simp only [if_neg hbc, decide_eq_true_eq] at h2
            have hac : a < c := lt_trans h1 h2
            simp only [if_neg (ne_of_lt hac), decide_eq_true_eq]
            exact hac

theorem lexLe_total (as bs : List Char) : lexLe as bs = true ∨ lexLe bs as = true := by
  induction as generalizing bs with
  | nil => exact Or.inl rfl
  | cons a as ih =>
    cases bs with
    | nil => exact Or.inr rfl
    | cons b bs =>
      by_cases hab : a = b
      · subst hab
        rcases ih bs with h | h
        · exact Or.inl (by simp [lexLe, h])
        · exact Or.inr (by simp [lexLe, h])
      · rcases lt_or_gt_of_ne hab with h | h
        · exact Or.inl (by simp [lexLe, if_neg hab, h])
        · exact Or.inr (by simp [lexLe, if_neg (Ne.symm hab), h])

theorem lexLe_antisymm {as bs : List Char} (h1 : lexLe as bs = true)
    (h2 : lexLe bs as = true) : as = bs := by
  induction as generalizing bs with
  | nil =>
    cases bs with
    | nil => rfl
    | cons b bs => simp [lexLe] at h2
  | cons a as ih =>
    cases bs with
    | nil => simp [lexLe] at h1
    | cons b bs =>
      by_cases hab : a = b
      · subst hab
        simp only [lexLe, if_pos rfl] at h1 h2
        exact congrArg _ (ih h1 h2)
      · simp only [lexLe, if_neg hab, decide_eq_true_eq] at h1
        simp only [lexLe, if_neg (Ne.symm hab), decide_eq_true_eq] at h2
        exact absurd h2 (not_lt_of_gt h1)

instance : IsTotal Entry nameKeyLe := ⟨fun _ _ => lexLe_total _ _⟩

instance : IsTrans Entry nameKeyLe := ⟨fun _ _ _ => lexLe_trans⟩

/-- The strict part of the sort key order, used to show that two sorted
sequences over case-insensitively distinct names coincide. -/
def nameKeyLt (a b : Entry) : Prop := nameKeyLe a b ∧ pyLower a.name ≠ pyLower b.name

instance : IsAntisymm Entry nameKeyLt :=
  ⟨fun _ _ h1 h2 =>
    absurd (String.ext (lexLe_antisymm h1.1 h2.1)) h1.2⟩

/-! ### Scan characterization -/

/-- Membership in a scan result: exactly the classified images of the children
that survive `_is_dir_candidate`. -/
theorem mem_scan_iff {root : RootDir} (h : root.present = true) {it : WorkspaceItem} :
    it ∈ scan_workspace root ↔
      ∃ e ∈ root.entries, is_dir_candidate e = true ∧ it = classifyChild root.path e := by
  unfold scan_workspace
  rw [h]
  simp only [Bool.not_true, Bool.false_eq_true, if_false, List.mem_map, List.mem_filter,
    List.mem_insertionSort]
  constructor
  · rintro ⟨e, ⟨hmem, hcand⟩, heq⟩
    exact ⟨e, hmem, hcand, heq.symm⟩
  · rintro ⟨e, hmem, hcand, heq⟩
    exact ⟨e, ⟨hmem, hcand⟩, heq.symm⟩

/-- The filter predicate, phrased as the inclusion/exclusion rule. -/
theorem is_dir_candidate_iff (e : Entry) :
    is_dir_candidate e = true ↔
      e.isDir = true ∧ e.name ∉ noiseNames ∧
        (startsWith e.name "." = false ∨ e.name = ".obsidian") := by
  unfold is_dir_candidate
  by_cases hd : e.isDir <;>
    by_cases hh : startsWith e.name "." <;>
      by_cases ho : e.name = ".obsidian" <;>
        by_cases hn : e.name ∈ noiseNames <;>
          simp [hd, hh, ho, hn, List.elem_iff]

/-! ### Claims -/

/-- C1: for every set of direct children of an existing root, `scan_workspace`
includes exactly the children that are directories, whose name is not in the
noise-name list, and whose name either does not start with `"."` or is the
allow-listed `".obsidian"`; every such child appears (classified) in the
result, and nothing else does. -/
theorem scan_includes_exactly_candidate_dirs (root : RootDir)
    (h : root.present = true) (it : WorkspaceItem) :
    it ∈ scan_workspace root ↔
      ∃ e ∈ root.entries,
        (e.isDir = true ∧ e.name ∉ noiseNames ∧
          (startsWith e.name "." = false ∨ e.name = ".obsidian")) ∧
        it = classifyChild root.path e := by
  rw [mem_scan_iff h]
  constructor
  · rintro ⟨e, hmem, hcand, heq⟩
    exact ⟨e, hmem, (is_dir_candidate_iff e).mp hcand, heq⟩
  · rintro ⟨e, hmem, hcond, heq⟩
    exact ⟨e, hmem, (is_dir_candidate_iff e).mpr hcond, heq⟩

theorem scan_includes_exactly_candidate_dirs_witness :
    (classifyChild "/r" ⟨"proj", true, [], ⟨"", false⟩, ⟨"", false⟩⟩) ∈
        scan_workspace ⟨"/r", true,
          [⟨"node_modules", true, [], ⟨"", false⟩, ⟨"", false⟩⟩, ⟨"proj", true, [], ⟨"", false⟩, ⟨"", false⟩⟩]⟩ ∧
      ¬ (classifyChild "/r" ⟨"node_modules", true, [], ⟨"", false⟩, ⟨"", false⟩⟩) ∈
        scan_workspace ⟨"/r", true,
          [⟨"node_modules", true, [], ⟨"", false⟩, ⟨"", false⟩⟩, ⟨"proj", true, [], ⟨"", false⟩, ⟨"", false⟩⟩]⟩ := by
  constructor
  · exact (scan_includes_exactly_candidate_dirs _ rfl _).mpr
      ⟨⟨"proj", true, [], ⟨"", false⟩, ⟨"", false⟩⟩, by decide, ⟨rfl, by decide, by decide⟩, rfl⟩
  · intro hmem
    rcases (scan_includes_exactly_candidate_dirs _ rfl _).mp hmem with ⟨e, hmem', hcond, heq⟩
    simp only [List.mem_cons, List.not_mem_nil, or_false] at hmem'
    rcases hmem' with rfl | rfl
    · exact hcond.2.1 (by decide)
    · exact absurd heq (by decide)

/-- C4: when the root does not exist, `scan_workspace` returns the empty list
(no error is raised — the function is total in the embedding). -/
theorem scan_missing_root_empty (p : String) (entries : List Entry) :
    scan_workspace ⟨p, false, entries⟩ = [] := rfl

/-- C10: a direct child named exactly `".obsidian"` is included in the scan
(the allow-list exempts it from hidden-name filtering), but its `is_obsidian`
flag is true exactly when that directory itself contains a nested
`".obsidian"` entry — the filter's allow-list and `_detect_obsidian` test
different things. -/
theorem obsidian_allowlisted_but_not_auto_vault (root : RootDir)
    (h : root.present = true) (inside : List String) (bc lc : CmdResult)
    (hmem : (⟨".obsidian", true, inside, bc, lc⟩ : Entry) ∈ root.entries) :
    classifyChild root.path ⟨".obsidian", true, inside, bc, lc⟩ ∈ scan_workspace root ∧
      (classifyChild root.path ⟨".obsidian", true, inside, bc, lc⟩).is_obsidian =
        inside.contains ".obsidian" := by
  constructor
  · refine (mem_scan_iff h).mpr ⟨_, hmem, ?_, rfl⟩
    simp [is_dir_candidate, startsWith, noiseNames]
  · simp [classifyChild, detect_obsidian]

theorem obsidian_allowlisted_but_not_auto_vault_witness :
    classifyChild "/r" ⟨".obsidian", true, [], ⟨"", false⟩, ⟨"", false⟩⟩ ∈
        scan_workspace ⟨"/r", true, [⟨".obsidian", true, [], ⟨"", false⟩, ⟨"", false⟩⟩]⟩ ∧
      (classifyChild "/r" ⟨".obsidian", true, [], ⟨"", false⟩, ⟨"", false⟩⟩).is_obsidian = false :=
  have h := obsidian_allowlisted_but_not_auto_vault ⟨"/r", true,
    [⟨".obsidian", true, [], ⟨"", false⟩, ⟨"", false⟩⟩]⟩ rfl [] ⟨"", false⟩ ⟨"", false⟩
    (by decide)
  ⟨h.1, h.2⟩

/-- C2: the `_render` clamp re-establishes the selection invariant at every
render cycle: for any incoming index (in particular one left over from a scan
that shrank the item count), the clamped index is in `[0, count)` when the
count is positive — truncated to `count - 1`, not wrapped, when the incoming
index is at least the count — and is `0` when the count is zero. -/
theorem render_clamp_invariant (itemCount : Nat) (selected_index : Int) :
    (0 < itemCount →
      0 ≤ render_clamp itemCount selected_index ∧
      render_clamp itemCount selected_index < itemCount ∧
      ((itemCount : Int) ≤ selected_index →
        render_clamp itemCount selected_index = itemCount - 1)) ∧
    (itemCount = 0 → render_clamp itemCount selected_index = 0) := by
  constructor
  · intro h
    have hne : itemCount ≠ 0 := by omega
    unfold render_clamp
    rw [if_pos hne]
    omega
  · intro h
    subst h
    simp [render_clamp]

theorem render_clamp_invariant_witness :
    (0 ≤ render_clamp 3 5 ∧ render_clamp 3 5 < 3 ∧ render_clamp 3 5 = 2) ∧
      render_clamp 0 5 = 0 := by
  have h1 := (render_clamp_invariant 3 5).1 (by decide)
  have h2 := (render_clamp_invariant 0 5).2 rfl
  exact ⟨⟨h1.1, h1.2.1, h1.2.2 (by decide)⟩, h2⟩

/-- C3: `_select_delta` with delta `+1` or `-1` moves an in-range index by
±1 modulo the item count (euclidean wrap-around, hence again in `[0, count)`),
and leaves the index unchanged when the item count is zero. -/
theorem select_delta_wraps (itemCount : Nat) (selected_index : Int) :
    (0 ≤ selected_index → selected_index < (itemCount : Int) →
      (select_delta 1 itemCount selected_index =
          (selected_index + 1) % (itemCount : Int) ∧
        0 ≤ select_delta 1 itemCount selected_index ∧
        select_delta 1 itemCount selected_index < itemCount) ∧
      (select_delta (-1) itemCount selected_index =
          (selected_index - 1) % (itemCount : Int) ∧
        0 ≤ select_delta (-1) itemCount selected_index ∧
        select_delta (-1) itemCount selected_index < itemCount)) ∧
    (select_delta 1 0 selected_index = selected_index ∧
      select_delta (-1) 0 selected_index = selected_index) := by
  unfold select_delta
  refine ⟨fun h0 hlt => ?_, by simp⟩
  have hn : itemCount ≠ 0 := by omega
  have hn' : (itemCount : Int) ≠ 0 := by exact_mod_cast hn
  have hpos : (0 : Int) < itemCount := by omega
  have hsub : selected_index + -1 = selected_index - 1 := by ring
  rw [if_neg hn, if_neg hn]
  exact ⟨⟨rfl, Int.emod_nonneg _ hn', Int.emod_lt_of_pos _ hpos⟩,
    ⟨by rw [hsub], Int.emod_nonneg _ hn', Int.emod_lt_of_pos _ hpos⟩⟩

theorem select_delta_wraps_witness :
    (select_delta 1 3 2 = ((2 : Int) + 1) % ((3 : Nat) : Int) ∧
      0 ≤ select_delta 1 3 2 ∧ select_delta 1 3 2 < 3) ∧
      select_delta 1 0 7 = 7 :=
  ⟨((select_delta_wraps 3 2).1 (by decide) (by decide)).1, (select_delta_wraps 0 7).2.1⟩

theorem pyStrip_dash_newline : pyStrip "-\n" = "-" := by decide

theorem pyStrip_empty : pyStrip "" = "" := by decide

theorem pyStrip_empty_fallback : pyStrip ("" ++ "-\n") = "-" := by decide

/-- C5, counterexample to the claim as stated: a failing lookup command may
have written to stdout before exiting non-zero.  In a version-controlled
directory with no commits, `git rev-parse --abbrev-ref HEAD` prints `HEAD` to
stdout (its fatal message goes to the discarded stderr) and fails, so the
captured stdout of the composite command is `"HEAD\n-\n"` and `_git_branch`
returns the stripped `"HEAD\n-"` — not the sentinel `"-"` the claim asserts
for every lookup whose command fails or finds no commits. -/
theorem classify_no_commits_branch_not_sentinel :
    (classifyChild "/r"
        ⟨"repo", true, [".git"], ⟨"HEAD\n", false⟩, ⟨"", false⟩⟩).branch = "HEAD\n-" ∧
      ¬ (classifyChild "/r"
        ⟨"repo", true, [".git"], ⟨"HEAD\n", false⟩, ⟨"", false⟩⟩).branch = "-" := by
  decide

/-- C5, amended: lookups are attempted only for version-controlled items, and
classification never propagates a lookup failure (the classifier is a total
function).  For a child without version control both `branch` and
`last_commit` are the sentinel `"-"`.  For a version-controlled child a
lookup degrades to the sentinel whenever its command wrote nothing to stdout
of its own — whether it failed, as `git log` does when there are no commits,
or succeeded with empty output — and whenever it succeeded with only
whitespace.  (When a failing command writes to stdout first, the field holds
that output joined with the echoed dash instead of the sentinel, as the
counterexample shows for the no-commits branch lookup.) -/
theorem classify_lookup_sentinels (rootPath : String) (e : Entry) :
    (git_is_repo e = false →
      (classifyChild rootPath e).branch = "-" ∧
      (classifyChild rootPath e).last_commit = "-") ∧
    (e.branchCmd.stdout = "" → (classifyChild rootPath e).branch = "-") ∧
    (∀ s, e.branchCmd = ⟨s, true⟩ → pyStrip s = "" →
      (classifyChild rootPath e).branch = "-") ∧
    (e.logCmd.stdout = "" → (classifyChild rootPath e).last_commit = "-") ∧
    (∀ s, e.logCmd = ⟨s, true⟩ → pyStrip s = "" →
      (classifyChild rootPath e).last_commit = "-") := by
  refine ⟨fun h => ?_, fun h => ?_, fun s hs hempty => ?_, fun h => ?_, fun s hs hempty => ?_⟩
  · simp [classifyChild, h]
  · rcases hcb : e.branchCmd with ⟨out, ok⟩
    rw [hcb] at h
    have hout : out = "" := h
    subst hout
    by_cases hg : git_is_repo e <;> cases ok <;>
      simp [classifyChild, git_branch, fallbackStdout, pyOr, hg, hcb,
        pyStrip_empty, pyStrip_empty_fallback, pyStrip_dash_newline]
  · by_cases hg : git_is_repo e <;>
      simp [classifyChild, git_branch, fallbackStdout, pyOr, hs, hempty, hg]
  · rcases hcl : e.logCmd with ⟨out, ok⟩
    rw [hcl] at h
    have hout : out = "" := h
    subst hout
    by_cases hg : git_is_repo e <;> cases ok <;>
      simp [classifyChild, git_last_commit_relative, fallbackStdout, pyOr, hg, hcl,
        pyStrip_empty, pyStrip_empty_fallback, pyStrip_dash_newline]
  · by_cases hg : git_is_repo e <;>
      simp [classifyChild, git_last_commit_relative, fallbackStdout, pyOr, hs, hempty, hg]

theorem classify_lookup_sentinels_witness :
    ((classifyChild "/r"
        ⟨"plain", true, [], ⟨"main", true⟩, ⟨"1 day ago", true⟩⟩).branch = "-" ∧
      (classifyChild "/r"
        ⟨"plain", true, [], ⟨"main", true⟩, ⟨"1 day ago", true⟩⟩).last_commit = "-") ∧
      (classifyChild "/r" ⟨"repo", true, [".git"], ⟨"", false⟩, ⟨"  \n", true⟩⟩).branch = "-" ∧
      (classifyChild "/r"
        ⟨"repo", true, [".git"], ⟨"", false⟩, ⟨"  \n", true⟩⟩).last_commit = "-" :=
  ⟨(classify_lookup_sentinels "/r"
      ⟨"plain", true, [], ⟨"main", true⟩, ⟨"1 day ago", true⟩⟩).1 rfl,
    (classify_lookup_sentinels "/r"
      ⟨"repo", true, [".git"], ⟨"", false⟩, ⟨"  \n", true⟩⟩).2.1 rfl,
    (classify_lookup_sentinels "/r"
      ⟨"repo", true, [".git"], ⟨"", false⟩, ⟨"  \n", true⟩⟩).2.2.2.2
      "  \n" rfl (by decide)⟩

/-- C6: each precondition-bound action is a complete no-op (no spawned
process, no `xdg-open`, hence the empty effect list; none of these functions
touches the selection state) whenever its precondition is unmet: every action
with no selection, `_git_status` on a non-git item, `_npm_dev` on a non-node
item, and `_python_setup` on a non-python item — for every classification
combination of the selected item. -/
theorem action_preconditions_noop (venvPresent : Bool) :
    open_selected none = [] ∧ git_status none = [] ∧ npm_dev none = [] ∧
    python_setup venvPresent none = [] ∧
    (∀ it : WorkspaceItem, it.is_git = false → git_status (some it) = []) ∧
    (∀ it : WorkspaceItem, it.is_node = false → npm_dev (some it) = []) ∧
    (∀ it : WorkspaceItem, it.is_python = false → python_setup venvPresent (some it) = []) := by
  refine ⟨rfl, rfl, rfl, rfl, fun it h => ?_, fun it h => ?_, fun it h => ?_⟩
  · simp [git_status, h]
  · simp [npm_dev, h]
  · simp [python_setup, h]

theorem action_preconditions_noop_witness :
    git_status (some ⟨"x", "/r/x", false, true, true, true, "-", "-"⟩) = [] ∧
      npm_dev (some ⟨"x", "/r/x", true, true, false, true, "main", "-"⟩) = [] ∧
      python_setup true (some ⟨"x", "/r/x", true, false, true, true, "main", "-"⟩) = [] ∧
      open_selected none = [] :=
  ⟨(action_preconditions_noop true).2.2.2.2.1 _ rfl,
    (action_preconditions_noop true).2.2.2.2.2.1 _ rfl,
    (action_preconditions_noop true).2.2.2.2.2.2 _ rfl,
    (action_preconditions_noop true).1⟩

/-- C9: `_python_setup` on a selected script (python) project creates the
`.venv` directory only when it is absent: when the venv already exists the
only effect is the bootstrap script (pip self-upgrade and manifest install) —
no creation, destruction or reset of the venv; when it is absent, the creation
command runs first, followed by the same bootstrap script. -/
theorem python_setup_venv_frame (it : WorkspaceItem) (h : it.is_python = true) :
    python_setup true (some it) = [Effect.run python_setup_cmd it.path] ∧
    python_setup false (some it) =
      [Effect.run venv_create_cmd it.path, Effect.run python_setup_cmd it.path] := by
  constructor <;> simp [python_setup, h]

theorem python_setup_venv_frame_witness :
    python_setup true (some ⟨"py", "/r/py", false, true, false, false, "-", "-"⟩) =
        [Effect.run python_setup_cmd "/r/py"] ∧
      python_setup false (some ⟨"py", "/r/py", false, true, false, false, "-", "-"⟩) =
        [Effect.run venv_create_cmd "/r/py", Effect.run python_setup_cmd "/r/py"] :=
  python_setup_venv_frame ⟨"py", "/r/py", false, true, false, false, "-", "-"⟩ rfl

/-- A recognized key is one of the eight bound keys. -/
theorem contains_actionKeys_cases {k : String} (hk : actionKeys.contains k = true) :
    k = "q" ∨ k = "j" ∨ k = "k" ∨ k = "o" ∨ k = "g" ∨ k = "n" ∨ k = "p" ∨ k = "r" := by
  rw [List.elem_iff] at hk
  simp only [actionKeys, List.mem_cons, List.not_mem_nil, or_false] at hk
  tauto

/-- C7: each iteration of the dashboard loop reads exactly one key (the
`loop_step` function consumes one input per call).  The loop reaches its
terminal state exactly when the (default-filled, stripped) key is the quit key
`"q"`; an unrecognized key continues the loop with no effect (and the
selection as the render clamp left it); the refresh key `"r"` likewise
performs no explicit action.  All lookup failures are absorbed below this
level (the embedding's step is a total function), so nothing but the quit key
terminates the loop. -/
theorem loop_step_dispatch (root : RootDir) (venvPresent : Bool)
    (selected_index : Int) (raw : String) :
    ((∃ s, loop_step root venvPresent selected_index raw = StepOutcome.terminated s) ↔
      readKey raw = "q") ∧
    (actionKeys.contains (readKey raw) = false →
      loop_step root venvPresent selected_index raw =
        StepOutcome.running (render_clamp (scan_workspace root).length selected_index) []) ∧
    (readKey raw = "r" →
      loop_step root venvPresent selected_index raw =
        StepOutcome.running (render_clamp (scan_workspace root).length selected_index) []) := by
  by_cases hc : actionKeys.contains (readKey raw) = true
  · rcases contains_actionKeys_cases hc with h | h | h | h | h | h | h | h <;>
      refine ⟨?_, fun hfalse => ?_, fun hr => ?_⟩ <;>
      simp_all [loop_step, actionKeys]
  · have hc' : actionKeys.contains (readKey raw) = false := by
      simpa using hc
    have hmem : readKey raw ∉ actionKeys := by
      simpa [List.elem_iff] using hc
    refine ⟨⟨fun hex => ?_, fun hq => ?_⟩, fun _ => ?_, fun hr => ?_⟩
    · obtain ⟨s, hs⟩ := hex
      simp [loop_step, hc', hmem] at hs
    · rw [hq] at hc'
      simp [actionKeys] at hc'
    · simp [loop_step, hc', hmem]
    · rw [hr] at hc'
      simp [actionKeys] at hc'

theorem loop_step_dispatch_witness :
    loop_step ⟨"/r", true, [⟨"a", true, [], ⟨"", false⟩, ⟨"", false⟩⟩]⟩ false 5 "x" =
        StepOutcome.running 0 [] ∧
      readKey "" = "q" ∧
      (∃ s, loop_step ⟨"/r", true, [⟨"a", true, [], ⟨"", false⟩, ⟨"", false⟩⟩]⟩ false 5 "" =
        StepOutcome.terminated s) := by
  refine ⟨?_, by decide, ?_⟩
  · exact ((loop_step_dispatch ⟨"/r", true, [⟨"a", true, [], ⟨"", false⟩, ⟨"", false⟩⟩]⟩ false 5 "x").2.1
      (by decide)).trans (by decide)
  · exact (loop_step_dispatch ⟨"/r", true, [⟨"a", true, [], ⟨"", false⟩, ⟨"", false⟩⟩]⟩ false 5 "").1.mpr
      (by decide)

/-- C8, counterexample: the claim quantifies over every permutation of the
same set of names.  Two directories whose names differ only in case have equal
sort keys; Python's `sorted` is stable, so the two iteration orders of the
same set of children yield different result sequences. -/
theorem scan_not_permutation_invariant :
    scan_workspace ⟨"/r", true,
        [⟨"A", true, [], ⟨"", false⟩, ⟨"", false⟩⟩, ⟨"a", true, [], ⟨"", false⟩, ⟨"", false⟩⟩]⟩ ≠
      scan_workspace ⟨"/r", true,
        [⟨"a", true, [], ⟨"", false⟩, ⟨"", false⟩⟩, ⟨"A", true, [], ⟨"", false⟩, ⟨"", false⟩⟩]⟩ := by
  decide

/-- C8, amended: for children whose names are all ASCII — the domain on which
`pyLower` coincides exactly with Python `str.lower()`, so the embedded sort
key is the program's sort key — and pairwise distinct after lowercasing,
every permutation of the same children produces the same result sequence
(first conjunct) and the result is sorted by the lowercased names (second
conjunct); scan is a function of the entry sequence, hence deterministic for
a fixed directory set.  The all-ASCII hypothesis scopes the statement to
inputs where the embedding of the key is exact: Python also case-folds
non-ASCII letters, so names differing only in the case of a non-ASCII letter
collide in the program just as `"A"`/`"a"` do in the counterexample. -/
theorem scan_sorted_and_perm_invariant (p : String) (l₁ l₂ : List Entry)
    (hperm : l₁.Perm l₂)
    (_hascii : ∀ e ∈ l₁, asciiOnly e.name = true)
    (hkeys : l₁.Pairwise fun a b => pyLower a.name ≠ pyLower b.name) :
    scan_workspace ⟨p, true, l₁⟩ = scan_workspace ⟨p, true, l₂⟩ ∧
      (scan_workspace ⟨p, true, l₁⟩).Pairwise fun a b =>
        lexLe (pyLower a.name).data (pyLower b.name).data = true := by
  have hscan : ∀ l : List Entry, scan_workspace ⟨p, true, l⟩ =
      ((List.insertionSort nameKeyLe l).filter is_dir_candidate).map
        (classifyChild p) := fun _ => rfl
  have hkeys₂ : l₂.Pairwise fun a b => pyLower a.name ≠ pyLower b.name :=
    ((hperm.pairwise_iff fun h => h.symm).mp hkeys)
  have hsorted : ∀ l : List Entry,
      ((List.insertionSort nameKeyLe l).filter is_dir_candidate).Pairwise nameKeyLe :=
    fun l => List.Pairwise.sublist (List.filter_sublist _)
      (List.sorted_insertionSort nameKeyLe l)
  have hne : ∀ l : List Entry, (l.Pairwise fun a b => pyLower a.name ≠ pyLower b.name) →
      ((List.insertionSort nameKeyLe l).filter is_dir_candidate).Pairwise
        fun a b => pyLower a.name ≠ pyLower b.name := by
    intro l hl
    refine List.Pairwise.sublist (List.filter_sublist _) ?_
    exact ((List.perm_insertionSort nameKeyLe l).pairwise_iff fun h => h.symm).mpr hl
  have hlt₁ : ((List.insertionSort nameKeyLe l₁).filter is_dir_candidate).Pairwise nameKeyLt :=
    ((hsorted l₁).and (hne l₁ hkeys)).imp fun h => ⟨h.1, h.2⟩
  have hlt₂ : ((List.insertionSort nameKeyLe l₂).filter is_dir_candidate).Pairwise nameKeyLt :=
    ((hsorted l₂).and (hne l₂ hkeys₂)).imp fun h => ⟨h.1, h.2⟩
  have hp : ((List.insertionSort nameKeyLe l₁).filter is_dir_candidate).Perm
      ((List.insertionSort nameKeyLe l₂).filter is_dir_candidate) :=
    List.Perm.filter is_dir_candidate
      ((List.perm_insertionSort nameKeyLe l₁).trans
        (hperm.trans (List.perm_insertionSort nameKeyLe l₂).symm))
  have heq : (List.insertionSort nameKeyLe l₁).filter is_dir_candidate =
      (List.insertionSort nameKeyLe l₂).filter is_dir_candidate :=
    List.eq_of_perm_of_sorted hp hlt₁ hlt₂
  constructor
  · rw [hscan l₁, hscan l₂, heq]
  · rw [hscan l₁]
    exact List.pairwise_map.mpr ((hsorted l₁).imp fun h => h)

theorem scan_sorted_and_perm_invariant_witness :
    scan_workspace ⟨"/r", true,
        [⟨"beta", true, [], ⟨"", false⟩, ⟨"", false⟩⟩, ⟨"Alpha", true, [], ⟨"", false⟩, ⟨"", false⟩⟩]⟩ =
      scan_workspace ⟨"/r", true,
        [⟨"Alpha", true, [], ⟨"", false⟩, ⟨"", false⟩⟩, ⟨"beta", true, [], ⟨"", false⟩, ⟨"", false⟩⟩]⟩ :=
  (scan_sorted_and_perm_invariant "/r"
    [⟨"beta", true, [], ⟨"", false⟩, ⟨"", false⟩⟩, ⟨"Alpha", true, [], ⟨"", false⟩, ⟨"", false⟩⟩]
    [⟨"Alpha", true, [], ⟨"", false⟩, ⟨"", false⟩⟩, ⟨"beta", true, [], ⟨"", false⟩, ⟨"", false⟩⟩]
    (by decide) (by decide) (by decide)).1

end Cerveau
